import Mathlib

/-!
Verification of the run-scoped, content-addressed, resumable analysis cache of
`mcp-cobol-parser` (files `pagination.py`, `settings.py`, `utils/fs.py`,
`hashing.py`, `tools/parse_repo.py`).

Machine integers are modelled as `Int`/`Nat` (no overflow is reachable at the
sizes involved), fallible code returns `Except`/`Option`, and the on-disk
content cache is modelled as an association list threaded through the
orchestration code.  The base64 + UTF-8 + JSON byte serialisation used by the
cursor codec is a reversible bijection between strings-that-decode and JSON
values, so an opaque token is modelled as `Option Json`: `some j` is a string
whose base64/JSON decoding yields the JSON value `j`, and `none` is any string
on which that decoding raises.
-/

namespace McpCobolParser

/-! ## JSON values (as produced by `json.loads` / consumed by `json.dumps`)

All numeric fields of the cursor are Python ints, so JSON numbers are modelled
as `Int`. -/

/-- A JSON value.  Object fields are kept in insertion order, as `json.dumps`
and `json.loads` do for Python dicts. -/
inductive Json where
  | null
  | bool (b : Bool)
  | num (n : Int)
  | str (s : String)
  | arr (elems : List Json)
  | obj (fields : List (String × Json))
deriving Repr

/-- Field lookup in a decoded JSON object.  `json.loads` keeps the LAST
occurrence of a duplicated key, hence the recursion prefers the tail. -/
def lookupField : List (String × Json) → String → Option Json
  | [], _ => none
  | (k1, v) :: rest, k =>
    match lookupField rest k with
    | some r => some r
    | none => if k1 = k then some v else none

/-! ## pagination.py -/

/-- `pagination.ORDER_KEY`. -/
def ORDER_KEY : String := "krelpath"

/-- `pagination.CursorV1` with its pydantic field defaults. -/
structure CursorV1 where
  v : Int := 1
  kinds : List String := ["source_index", "copybook", "program"]
  offset : Int := 0
  ps : Int := 100
  run_id : String
  order_key : String := ORDER_KEY
deriving DecidableEq, Repr

/-- The serialisation order of `CursorV1.model_dump()` (pydantic dumps fields
in declaration order; `json.dumps` keeps dict insertion order). -/
def cursorToJson (c : CursorV1) : Json :=
  Json.obj [("v", Json.num c.v),
            ("kinds", Json.arr (c.kinds.map Json.str)),
            ("offset", Json.num c.offset),
            ("ps", Json.num c.ps),
            ("run_id", Json.str c.run_id),
            ("order_key", Json.str c.order_key)]

/-- Validation of an int field (pydantic v2 rejects bools and other JSON shapes
for `int` fields; the lax string-to-int coercion is not modelled, no claim
depends on it). -/
def asInt : Json → Option Int
  | Json.num n => some n
  | _ => none

/-- Validation of a str field. -/
def asStr : Json → Option String
  | Json.str s => some s
  | _ => none

/-- Validation of every element of a `list[str]` field. -/
def strListOfJson : List Json → Option (List String)
  | [] => some []
  | j :: rest =>
    match asStr j, strListOfJson rest with
    | some s, some l => some (s :: l)
    | _, _ => none

/-- Validation of a `list[str]` field. -/
def asStrList : Json → Option (List String)
  | Json.arr es => strListOfJson es
  | _ => none

/-- An optional field with a pydantic default: absent means the default,
present-but-invalid means a `ValidationError`. -/
def fieldOr {β : Type} (fields : List (String × Json)) (k : String)
    (parse : Json → Option β) (d : β) : Option β :=
  match lookupField fields k with
  | none => some d
  | some j => parse j

/-- `CursorV1(**data)`: pydantic validation of the decoded JSON payload.
`run_id` is required; the remaining fields have defaults; extra keys are
ignored (pydantic's default `extra` policy); a non-object payload fails. -/
def cursorFromJson : Json → Except String CursorV1
  | Json.obj fields =>
    match fieldOr fields "v" asInt 1,
          fieldOr fields "kinds" asStrList ["source_index", "copybook", "program"],
          fieldOr fields "offset" asInt 0,
          fieldOr fields "ps" asInt 100,
          (lookupField fields "run_id").bind asStr,
          fieldOr fields "order_key" asStr ORDER_KEY with
    | some v1, some ks, some off, some p, some rid, some ok =>
      Except.ok { v := v1, kinds := ks, offset := off, ps := p, run_id := rid, order_key := ok }
    | _, _, _, _, _, _ => Except.error "cursor validation failed"
  | _ => Except.error "cursor validation failed"

/-- An opaque cursor token: `some j` is a string whose base64/UTF-8/JSON
decoding yields `j`; `none` is a string on which that decoding raises. -/
abbrev Token := Option Json

/-- `pagination.encode_cursor`: dump the model and serialise it (the byte-level
serialisation is the bijection absorbed into `Token`). -/
def encode_cursor (c : CursorV1) : Token :=
  some (cursorToJson c)

/-- `pagination.decode_cursor`: deserialise, validate as `CursorV1`, then
reject the cursor when its `order_key` differs from the current `ORDER_KEY`. -/
def decode_cursor : Token → Except String CursorV1
  | none => Except.error "invalid token"
  | some j =>
    match cursorFromJson j with
    | Except.error e => Except.error e
    | Except.ok c =>
      if c.order_key ≠ ORDER_KEY then
        Except.error "Cursor ordering changed; please restart without cursor."
      else
        Except.ok c

theorem strListOfJson_map (l : List String) :
    strListOfJson (l.map Json.str) = some l := by
  induction l with
  | nil => rfl
  | cons s rest ih => simp [strListOfJson, asStr, ih]

theorem cursorFromJson_toJson (c : CursorV1) :
    cursorFromJson (cursorToJson c) = Except.ok c := by
  cases c with
  | mk v1 ks off p rid ok =>
    simp [cursorToJson, cursorFromJson, fieldOr, lookupField, asInt, asStr, asStrList,
      strListOfJson_map]

/-- C6: for every cursor carrying the current order scheme identifier,
decoding the encoding of the cursor yields the cursor itself:
`decode(encode(c)) == c`. -/
theorem cursor_roundtrip (c : CursorV1) (h : c.order_key = ORDER_KEY) :
    decode_cursor (encode_cursor c) = Except.ok c := by
  simp [encode_cursor, decode_cursor, cursorFromJson_toJson, h]

/-- Witness for `cursor_roundtrip` at a concrete cursor. -/
theorem cursor_roundtrip_witness :
    decode_cursor (encode_cursor { run_id := "cpr_20250101T000000000000Z" })
      = Except.ok { run_id := "cpr_20250101T000000000000Z" } :=
  cursor_roundtrip { run_id := "cpr_20250101T000000000000Z" } rfl

/-- C7: the codec rejects malformed tokens (undecodable strings, and decodable
strings that fail `CursorV1` validation, here a JSON string payload), and it
never returns a cursor whose order scheme differs from the current one: any
successful decode carries `ORDER_KEY`.  No silent fallback happens at the
codec level. -/
theorem cursor_decode_no_fallback (s : String) :
    (∃ e, decode_cursor none = Except.error e) ∧
    (∃ e, decode_cursor (some (Json.str s)) = Except.error e) ∧
    (∀ (t : Token) (c : CursorV1), decode_cursor t = Except.ok c → c.order_key = ORDER_KEY) := by
  refine ⟨⟨"invalid token", rfl⟩, ⟨"cursor validation failed", rfl⟩, ?_⟩
  intro t c h
  match t with
  | none => simp [decode_cursor] at h
  | some j =>
    simp only [decode_cursor] at h
    cases hj : cursorFromJson j with
    | error e => rw [hj] at h; cases h
    | ok c1 =>
      rw [hj] at h
      dsimp only at h
      split at h
      · cases h
      · next hk =>
        cases h
        exact Decidable.not_not.mp hk

/-- Witness for `cursor_decode_no_fallback`: a concrete token that decodes
successfully indeed carries the current order scheme identifier. -/
theorem cursor_decode_no_fallback_witness :
    ({ run_id := "cpr_w" } : CursorV1).order_key = ORDER_KEY :=
  (cursor_decode_no_fallback "junk").2.2 (encode_cursor { run_id := "cpr_w" })
    { run_id := "cpr_w" } (by rfl)

/-! ## settings.py -/

/-- The paging-relevant part of `settings.Settings` with its field defaults
(`PAGE_SIZE=100`, `MAX_PAGE_SIZE=500`, `WORKERS=8`); each field is
environment-overridable, so theorems quantify over the configuration. -/
structure Settings where
  PAGE_SIZE : Int := 100
  MAX_PAGE_SIZE : Int := 500
  WORKERS : Int := 8
deriving DecidableEq, Repr

/-! ## tools/parse_repo.py — request-shape resolution -/

/-- Python string truthiness for an `or` chain link: `a or rest` where `a` is
an optional string (`None` and `""` are falsy). -/
def py_or_str (a : Option String) (rest : String) : String :=
  match a with
  | none => rest
  | some s => if s = "" then rest else s

/-- Lines 65-67: `effective_page_size = input.page_size or cfg.PAGE_SIZE`,
then silently clamped down to `cfg.MAX_PAGE_SIZE` (`None` and `0` are falsy;
no lower bound or rejection is applied). -/
def effective_page_size (page_size : Option Int) (cfg : Settings) : Int :=
  let e : Int :=
    match page_size with
    | none => cfg.PAGE_SIZE
    | some p => if p = 0 then cfg.PAGE_SIZE else p
  if e > cfg.MAX_PAGE_SIZE then cfg.MAX_PAGE_SIZE else e

/-- Lines 75-81: the supplied token is decoded inside
`try: ... except Exception: cur_from_input = None` — every decode failure
(malformed token or order-scheme mismatch) is swallowed and treated as if no
cursor had been supplied. -/
def cursor_from_input (tok : Option Token) : Option CursorV1 :=
  match tok with
  | none => none
  | some t =>
    match decode_cursor t with
    | Except.ok c => some c
    | Except.error _ => none

/-- Lines 82-86: `run_id_val = (cur_from_input.run_id if cur_from_input else
None) or input.run_id or make_run_id()`; `fresh` stands for the
`make_run_id()` result. -/
def resolve_run_id (cfi : Option CursorV1) (req_run_id : Option String)
    (fresh : String) : String :=
  py_or_str (cfi.map (fun c => c.run_id)) (py_or_str req_run_id fresh)

/-- Lines 119-124: reuse the decoded cursor when its embedded run id equals
the resolved run id, overwriting its page size with the effective one;
otherwise create a fresh `CursorV1` at offset 0. -/
def resolve_page_cursor (cfi : Option CursorV1) (run_id_val : String)
    (eps : Int) : CursorV1 :=
  match cfi with
  | some c =>
    if c.run_id = run_id_val then { c with ps := eps }
    else { run_id := run_id_val, ps := eps }
  | none => { run_id := run_id_val, ps := eps }

/-- Lines 75-124 combined: the run id and pagination cursor a request ends up
using, as a function of the supplied token, the explicit `run_id` parameter,
the freshly generated run id and the effective page size.  This resolution is
total: no branch raises. -/
def resolve_run_and_cursor (tok : Option Token) (req_run_id : Option String)
    (fresh : String) (eps : Int) : String × CursorV1 :=
  let cfi := cursor_from_input tok
  let rid := resolve_run_id cfi req_run_id fresh
  (rid, resolve_page_cursor cfi rid eps)

/-- C2 counterexample: a malformed cursor token (here, a token that decodes to
the JSON string `"garbage"`, which fails `CursorV1` validation) does not abort
the request — the decode failure is swallowed and a fresh run is silently
started at offset 0, contradicting the claim that an `InvalidCursor` error is
surfaced before any analyzer work and that no fresh run replaces the rejected
cursor. -/
theorem invalid_cursor_silently_starts_fresh_run :
    (∃ e, decode_cursor (some (Json.str "garbage")) = Except.error e) ∧
    resolve_run_and_cursor (some (some (Json.str "garbage"))) none "cpr_fresh" 100
      = ("cpr_fresh", { run_id := "cpr_fresh", ps := 100 }) :=
  ⟨⟨"cursor validation failed", rfl⟩, rfl⟩

/-- C2 amended: a cursor that fails to decode (malformed, failing validation,
or carrying a stale order scheme) is silently treated as absent — the request
proceeds with the explicit `run_id` parameter or a fresh run id and a fresh
offset-0 cursor; and a cursor that does decode is never rejected for
disagreeing with the request's `run_id` parameter — its embedded (truthy) run
id takes precedence and pagination resumes from its offset. -/
theorem cursor_resolution_fallback (tok : Option Token) (req_run_id : Option String)
    (fresh : String) (eps : Int) :
    (cursor_from_input tok = none →
      resolve_run_and_cursor tok req_run_id fresh eps
        = (py_or_str req_run_id fresh,
           { run_id := py_or_str req_run_id fresh, ps := eps })) ∧
    (∀ c : CursorV1, cursor_from_input tok = some c → c.run_id ≠ "" →
      resolve_run_and_cursor tok req_run_id fresh eps = (c.run_id, { c with ps := eps })) := by
  constructor
  · intro hnone
    simp [resolve_run_and_cursor, hnone, resolve_run_id, py_or_str, resolve_page_cursor]
  · intro c hc hne
    simp [resolve_run_and_cursor, hc, resolve_run_id, py_or_str, hne, resolve_page_cursor]

/-- Witness for `cursor_resolution_fallback`, applying it both to a request
whose token fails validation and to a request whose decoded cursor carries a
run id different from the explicit `run_id` parameter. -/
theorem cursor_resolution_fallback_witness :
    resolve_run_and_cursor (some (some (Json.num 7))) (some "cpr_req") "cpr_new" 50
      = ("cpr_req", { run_id := "cpr_req", ps := 50 }) ∧
    resolve_run_and_cursor (some (encode_cursor { run_id := "cpr_A", offset := 3 }))
        (some "cpr_B") "cpr_new" 50
      = ("cpr_A", { run_id := "cpr_A", offset := 3, ps := 50 }) :=
  ⟨(cursor_resolution_fallback (some (some (Json.num 7))) (some "cpr_req") "cpr_new" 50).1 rfl,
   (cursor_resolution_fallback (some (encode_cursor { run_id := "cpr_A", offset := 3 }))
      (some "cpr_B") "cpr_new" 50).2 { run_id := "cpr_A", offset := 3 } (by rfl)
      (by decide)⟩

/-- C10: the effective page size is the request's `page_size` when supplied
and truthy, otherwise the configured default; it is silently clamped down to
the configured maximum (never rejected); and when a decoded cursor is reused
for the same run, the effective page size overwrites the page size embedded in
the cursor while its offset is preserved — so the page size may change between
pages of one walk. -/
theorem effective_page_size_resolution (cfg : Settings) (p eps : Int) (c : CursorV1)
    (r : String) :
    (p ≠ 0 → p ≤ cfg.MAX_PAGE_SIZE → effective_page_size (some p) cfg = p) ∧
    (p ≠ 0 → p > cfg.MAX_PAGE_SIZE → effective_page_size (some p) cfg = cfg.MAX_PAGE_SIZE) ∧
    (cfg.PAGE_SIZE ≤ cfg.MAX_PAGE_SIZE →
      effective_page_size none cfg = cfg.PAGE_SIZE ∧
      effective_page_size (some 0) cfg = cfg.PAGE_SIZE) ∧
    (c.run_id = r → resolve_page_cursor (some c) r eps = { c with ps := eps }) := by
  refine ⟨?_, ?_, ?_, ?_⟩
  · intro hp hle
    simp only [effective_page_size, if_neg hp]
    split <;> omega
  · intro hp hgt
    simp only [effective_page_size, if_neg hp]
    split <;> omega
  · intro hle
    refine ⟨?_, ?_⟩
    · simp only [effective_page_size]
      split <;> omega
    · simp only [effective_page_size]
      norm_num
      omega
  · intro hr
    simp [resolve_page_cursor, hr]

/-- Witness for `effective_page_size_resolution` on the default configuration:
a supplied page size of 7 is kept, 9999 is clamped to 500, an absent or zero
page size falls back to 100, and a reused cursor's page size is overwritten. -/
theorem effective_page_size_resolution_witness :
    effective_page_size (some 7) {} = 7 ∧
    effective_page_size (some 9999) {} = 500 ∧
    effective_page_size none {} = 100 ∧
    effective_page_size (some 0) {} = 100 ∧
    resolve_page_cursor (some { run_id := "cpr_r", ps := 100, offset := 5 }) "cpr_r" 7
      = { run_id := "cpr_r", ps := 7, offset := 5 } :=
  ⟨(effective_page_size_resolution {} 7 7 { run_id := "cpr_r" } "cpr_r").1
      (by decide) (by decide),
   (effective_page_size_resolution {} 9999 7 { run_id := "cpr_r" } "cpr_r").2.1
      (by decide) (by decide),
   ((effective_page_size_resolution {} 7 7 { run_id := "cpr_r" } "cpr_r").2.2.1
      (by decide)).1,
   ((effective_page_size_resolution {} 7 7 { run_id := "cpr_r" } "cpr_r").2.2.1
      (by decide)).2,
   (effective_page_size_resolution {} 7 7 { run_id := "cpr_r", ps := 100, offset := 5 }
      "cpr_r").2.2.2 rfl⟩

/-! ## tools/parse_repo.py — catalog entries and pagination slicing -/

/-- One entry of the catalog built by `cobol_parse_repo` (lines 99-117): the
synthetic whole-index entry `{"kind": "cam.asset.source_index", "key":
"source-index", "meta": {}}` or a per-file entry `{"kind", "key": relpath,
"sha": sha256}`.  The synthetic entry carries no `sha` (its dict has `meta`
instead, and `sha` is never read for it); that absent field is modelled as
`""`. -/
structure CatalogEntry where
  kind : String
  key : String
  sha : String := ""
deriving DecidableEq, Repr

/-- CPython index normalisation for a slice bound (`slice.indices` with step
1): a negative bound counts from the end and is clamped at 0, a non-negative
bound is clamped at the length. -/
def py_slice_norm (n i : Int) : Nat :=
  if i < 0 then (max (i + n) 0).toNat else (min i n).toNat

/-- Python list slicing `l[a:b]` (step 1). -/
def py_slice {α : Type} (l : List α) (a b : Int) : List α :=
  let s := py_slice_norm (l.length : Int) a
  let e := py_slice_norm (l.length : Int) b
  (l.drop s).take (e - s)

/-- Lines 126-128 and 243-246 of `cobol_parse_repo`: one request's page slice
and next cursor offset, given the catalog, the effective page size, and the
offset of the cursor in force (`0` when no valid same-run cursor was
supplied).  `start = cur.offset`, `end = min(start + effective_page_size,
total)`, `page_catalog = catalog[start:end]`; a next cursor carrying offset
`end` is emitted iff `end < total`. -/
def page_step (catalog : List CatalogEntry) (eps : Int) (offset : Int) :
    List CatalogEntry × Option Int :=
  let total : Int := catalog.length
  let endIdx : Int := min (offset + eps) total
  (py_slice catalog offset endIdx, if endIdx < total then some endIdx else none)

/-- The cursor walk of the claim: issue a request at the given offset, then
re-issue at each returned `next_cursor` offset until `next_cursor` is null,
concatenating the returned page slices.  The catalog is fixed across the walk
(the per-run SourceIndex is persisted and reloaded).  `fuel` bounds the number
of requests; `none` means the walk has not terminated within `fuel` requests. -/
def walk_pages (catalog : List CatalogEntry) (eps : Int) :
    Nat → Int → Option (List CatalogEntry)
  | 0, _ => none
  | fuel + 1, offset =>
    match page_step catalog eps offset with
    | (pg, none) => some pg
    | (pg, some offset2) => (walk_pages catalog eps fuel offset2).map (fun r => pg ++ r)

theorem py_slice_of_le {α : Type} (l : List α) (s e : Nat) (hs : s ≤ l.length)
    (he : e ≤ l.length) :
    py_slice l (↑s) (↑e) = (l.drop s).take (e - s) := by
  have h1 : py_slice_norm (l.length : Int) (↑s) = s := by
    simp only [py_slice_norm]
    rw [if_neg (by omega)]
    omega
  have h2 : py_slice_norm (l.length : Int) (↑e) = e := by
    simp only [py_slice_norm]
    rw [if_neg (by omega)]
    omega
  simp only [py_slice, h1, h2]

theorem walk_pages_drop (catalog : List CatalogEntry) (eps : Int) (heps : 1 ≤ eps) :
    ∀ (fuel k : Nat), k ≤ catalog.length → catalog.length - k < fuel →
      walk_pages catalog eps fuel (↑k) = some (catalog.drop k) := by
  intro fuel
  induction fuel with
  | zero => intro k hk hf; omega
  | succ n ih =>
    intro k hk hf
    by_cases h : min ((k : Int) + eps) (catalog.length : Int) < (catalog.length : Int)
    · have hend : min ((k : Int) + eps) (catalog.length : Int) = (k : Int) + eps := by omega
      have hk2 : ((k + eps.toNat : Nat) : Int) = (k : Int) + eps := by omega
      have hk2le : k + eps.toNat ≤ catalog.length := by omega
      have hstep : page_step catalog eps (↑k)
          = (py_slice catalog (↑k) (↑(k + eps.toNat)), some (↑(k + eps.toNat))) := by
        simp only [page_step, hend, hk2]
        rw [if_pos (by omega)]
      have hrec := ih (k + eps.toNat) hk2le (by omega)
      have hdd : catalog.drop (k + eps.toNat) = (catalog.drop k).drop (k + eps.toNat - k) := by
        rw [List.drop_drop]
        congr 1
        omega
      simp only [walk_pages, hstep, hrec]
      show some (py_slice catalog (↑k) (↑(k + eps.toNat)) ++ catalog.drop (k + eps.toNat))
        = some (catalog.drop k)
      rw [py_slice_of_le catalog k (k + eps.toNat) hk hk2le, hdd, List.take_append_drop]
    · have hend : min ((k : Int) + eps) (catalog.length : Int) = (catalog.length : Int) := by
        omega
      have hstep : page_step catalog eps (↑k)
          = (py_slice catalog (↑k) (↑catalog.length), none) := by
        simp only [page_step, hend, if_neg (by omega : ¬ (catalog.length : Int) < (catalog.length : Int))]
      simp only [walk_pages, hstep]
      rw [py_slice_of_le catalog k catalog.length hk le_rfl]
      congr 1
      rw [← List.length_drop]
      exact List.take_length _

/-- C1 amended: for every fixed catalog and every POSITIVE requested
`page_size` (with a positive configured maximum), walking cursors from the
initial request (offset 0) to a null `next_cursor` terminates within
`|catalog| + 1` requests and the concatenated page slices are exactly the
catalog entries, each exactly once, in catalog order.  (As stated, for ANY
page size, the claim is false: see
`pagination_walk_negative_page_size_cex`.) -/
theorem pagination_walk_completeness (catalog : List CatalogEntry) (p : Int)
    (cfg : Settings) (hp : 1 ≤ p) (hmax : 1 ≤ cfg.MAX_PAGE_SIZE) :
    walk_pages catalog (effective_page_size (some p) cfg) (catalog.length + 1) 0
      = some catalog := by
  have heps : 1 ≤ effective_page_size (some p) cfg := by
    simp only [effective_page_size, if_neg (by omega : ¬ p = 0)]
    split <;> omega
  have h := walk_pages_drop catalog (effective_page_size (some p) cfg) heps
    (catalog.length + 1) 0 (by omega) (by omega)
  simpa using h

/-- Witness for `pagination_walk_completeness`: a 3-entry catalog walked with
`page_size = 2` under the default configuration yields exactly the catalog. -/
theorem pagination_walk_completeness_witness :
    walk_pages [{ kind := "cam.asset.source_index", key := "source-index" },
                { kind := "cam.cobol.copybook", key := "c.cpy", sha := "s3" },
                { kind := "cam.cobol.program", key := "a.cbl", sha := "s1" }]
        (effective_page_size (some 2) {}) 4 0
      = some [{ kind := "cam.asset.source_index", key := "source-index" },
              { kind := "cam.cobol.copybook", key := "c.cpy", sha := "s3" },
              { kind := "cam.cobol.program", key := "a.cbl", sha := "s1" }] :=
  pagination_walk_completeness _ 2 {} (by decide) (by decide)

theorem walk_pages_neg_none (l : List CatalogEntry) :
    ∀ (fuel : Nat) (o : Int), o ≤ (l.length : Int) →
      walk_pages l (-1) fuel o = none := by
  intro fuel
  induction fuel with
  | zero => intro o ho; rfl
  | succ n ih =>
    intro o ho
    have hend : min (o + -1) (l.length : Int) = o - 1 := by omega
    have hstep : page_step l (-1) o = (py_slice l o (o - 1), some (o - 1)) := by
      simp only [page_step, hend, if_pos (by omega : o - 1 < (l.length : Int))]
    simp only [walk_pages, hstep, ih (o - 1) (by omega)]
    rfl

/-- C1 counterexample: a request may carry `page_size = -1`; it is truthy and
below the configured maximum, so the effective page size is `-1`.  On a
1-entry catalog the walk from the initial request then NEVER reaches a null
`next_cursor` (Python's negative slice bounds keep every page short of the
end), so no number of requests yields the catalog — refuting the claim "for
any chosen page_size". -/
theorem pagination_walk_negative_page_size_cex :
    effective_page_size (some (-1)) {} = -1 ∧
    ¬ ∃ fuel : Nat,
        walk_pages [{ kind := "cam.cobol.copybook", key := "a.cpy", sha := "s1" }]
          (-1) fuel 0
        = some [{ kind := "cam.cobol.copybook", key := "a.cpy", sha := "s1" }] := by
  refine ⟨rfl, ?_⟩
  rintro ⟨fuel, h⟩
  rw [walk_pages_neg_none _ fuel 0 (by decide)] at h
  cases h

/-- C8 amended: whenever the effective page size is at least 1 and a request
returns a non-null `next_cursor`, the offset embedded in it is strictly
greater than the offset the request started from (in particular strictly
greater than 0 for an initial request, which starts at offset 0).  (As stated,
for ANY page size the request may carry, the claim is false: see
`next_cursor_offset_decreases_cex`.) -/
theorem next_cursor_offset_increases (catalog : List CatalogEntry) (eps o o2 : Int)
    (heps : 1 ≤ eps) (h : (page_step catalog eps o).2 = some o2) :
    o < o2 := by
  simp only [page_step] at h
  split at h
  · next hlt =>
    cases h
    omega
  · cases h

/-- Witness for `next_cursor_offset_increases`: with page size 2 on a 3-entry
catalog, the initial request's next cursor carries offset 2 > 0. -/
theorem next_cursor_offset_increases_witness :
    (page_step [{ kind := "cam.asset.source_index", key := "source-index" },
                { kind := "cam.cobol.copybook", key := "c.cpy", sha := "s3" },
                { kind := "cam.cobol.program", key := "a.cbl", sha := "s1" }] 2 0).2
      = some 2 ∧ (0 : Int) < 2 :=
  ⟨rfl, next_cursor_offset_increases
    [{ kind := "cam.asset.source_index", key := "source-index" },
     { kind := "cam.cobol.copybook", key := "c.cpy", sha := "s3" },
     { kind := "cam.cobol.program", key := "a.cbl", sha := "s1" }] 2 0 2 (by decide) rfl⟩

/-- C8 counterexample: a request with no cursor (offset 0) and `page_size =
-1` (accepted: only an upper clamp is applied) returns a non-null
`next_cursor` whose embedded offset is `-1`, which is NOT greater than 0 —
the offset is decremented. -/
theorem next_cursor_offset_decreases_cex :
    (page_step [{ kind := "cam.cobol.copybook", key := "a.cpy", sha := "s1" },
                { kind := "cam.cobol.copybook", key := "b.cpy", sha := "s2" }] (-1) 0).2
      = some (-1) ∧ ¬ ((0 : Int) < -1) :=
  ⟨rfl, by decide⟩

/-! ## models/cam_source_index.py and the catalog build (parse_repo.py lines 95-117) -/

/-- `SourceIndexFile`: one file of the persisted source index. -/
structure SourceIndexFile where
  relpath : String
  size_bytes : Int
  sha256 : String
  kind : String
deriving DecidableEq, Repr

/-- The sort key of `sorted(files, key=lambda x: x.relpath)`: comparison of
relpaths.  Lean's `String` order is lexicographic on code points, which
coincides with byte-wise comparison of the UTF-8 encodings (UTF-8 preserves
code-point order), i.e. with Python's `str` comparison. -/
def file_le (a b : SourceIndexFile) : Prop :=
  a.relpath ≤ b.relpath

instance : DecidableRel file_le := fun a b =>
  (inferInstance : Decidable (a.relpath ≤ b.relpath))

instance : IsTotal SourceIndexFile file_le :=
  ⟨fun a b => le_total a.relpath b.relpath⟩

instance : IsTrans SourceIndexFile file_le :=
  ⟨fun _ _ _ h1 h2 => le_trans h1 h2⟩

/-- Python's `sorted` (a stable sort); insertion sort is likewise stable. -/
def sorted_by_relpath (fs : List SourceIndexFile) : List SourceIndexFile :=
  fs.insertionSort file_le

/-- Line 96: `[f for f in files if f.kind == "copybook" and ("copybook" in resolved_kinds)]`. -/
def copy_files (files : List SourceIndexFile) (resolved_kinds : List String) :
    List SourceIndexFile :=
  files.filter (fun f => f.kind == "copybook" && decide ("copybook" ∈ resolved_kinds))

/-- Line 97: `[f for f in files if f.kind == "cobol" and ("program" in resolved_kinds)]`. -/
def prog_files (files : List SourceIndexFile) (resolved_kinds : List String) :
    List SourceIndexFile :=
  files.filter (fun f => f.kind == "cobol" && decide ("program" ∈ resolved_kinds))

/-- Lines 99-117: the catalog — the synthetic whole-index entry when
`"source_index"` is requested, then one entry per eligible copybook file
sorted by relpath, then one entry per eligible program file sorted by
relpath. -/
def build_catalog (files : List SourceIndexFile) (resolved_kinds : List String) :
    List CatalogEntry :=
  (if "source_index" ∈ resolved_kinds then
    [{ kind := "cam.asset.source_index", key := "source-index" }] else [])
  ++ ((if "copybook" ∈ resolved_kinds then
    (sorted_by_relpath (copy_files files resolved_kinds)).map
      (fun f => { kind := "cam.cobol.copybook", key := f.relpath, sha := f.sha256 }) else [])
  ++ (if "program" ∈ resolved_kinds then
    (sorted_by_relpath (prog_files files resolved_kinds)).map
      (fun f => { kind := "cam.cobol.program", key := f.relpath, sha := f.sha256 }) else []))

/-- The priority rank of an artifact kind in the catalog order
(whole-index first, then copybooks, then programs). -/
def kind_rank (k : String) : Nat :=
  if k = "cam.asset.source_index" then 0
  else if k = "cam.cobol.copybook" then 1
  else 2

/-- The keys of the catalog entries of one artifact kind, in catalog order. -/
def keys_of_kind (catalog : List CatalogEntry) (ck : String) : List String :=
  catalog.filterMap (fun e => if e.kind = ck then some e.key else none)

theorem kind_of_mem_entry_map (ck : String) (l : List SourceIndexFile)
    (e : CatalogEntry)
    (he : e ∈ l.map (fun f => ({ kind := ck, key := f.relpath, sha := f.sha256 } : CatalogEntry))) :
    e.kind = ck := by
  rcases List.mem_map.mp he with ⟨f, _, rfl⟩
  rfl

theorem kind_of_mem_if_entry_map (c : Prop) [Decidable c] (ck : String)
    (l : List SourceIndexFile) (e : CatalogEntry)
    (he : e ∈ (if c then
      l.map (fun f => ({ kind := ck, key := f.relpath, sha := f.sha256 } : CatalogEntry))
      else [])) :
    e.kind = ck := by
  split at he
  · exact kind_of_mem_entry_map ck l e he
  · cases he

theorem kind_of_mem_si_segment (c : Prop) [Decidable c] (e : CatalogEntry)
    (he : e ∈ (if c then
      ([{ kind := "cam.asset.source_index", key := "source-index" }] : List CatalogEntry)
      else [])) :
    e.kind = "cam.asset.source_index" := by
  split at he
  · rw [List.mem_singleton] at he
    subst he
    rfl
  · cases he

theorem keys_of_kind_append (l1 l2 : List CatalogEntry) (ck : String) :
    keys_of_kind (l1 ++ l2) ck = keys_of_kind l1 ck ++ keys_of_kind l2 ck := by
  simp [keys_of_kind, List.filterMap_append]

theorem keys_of_kind_si_segment (c : Prop) [Decidable c] (ck : String)
    (hne : ¬ ("cam.asset.source_index" = ck)) :
    keys_of_kind (if c then
      ([{ kind := "cam.asset.source_index", key := "source-index" }] : List CatalogEntry)
      else []) ck = [] := by
  split
  · simp [keys_of_kind, hne]
  · rfl

theorem keys_of_kind_entry_map_same (ck : String) (l : List SourceIndexFile) :
    keys_of_kind
      (l.map (fun f => ({ kind := ck, key := f.relpath, sha := f.sha256 } : CatalogEntry))) ck
      = l.map (fun f => f.relpath) := by
  simp only [keys_of_kind, List.filterMap_map]
  have h : ((fun e : CatalogEntry => if e.kind = ck then some e.key else none) ∘
      (fun f : SourceIndexFile =>
        ({ kind := ck, key := f.relpath, sha := f.sha256 } : CatalogEntry)))
      = fun f : SourceIndexFile => some f.relpath := by
    funext f
    simp
  rw [h]
  show List.filterMap (some ∘ fun f : SourceIndexFile => f.relpath) l = _
  rw [List.filterMap_eq_map]

theorem keys_of_kind_entry_map_other (ck ck2 : String) (hne : ¬ (ck2 = ck))
    (l : List SourceIndexFile) :
    keys_of_kind
      (l.map (fun f => ({ kind := ck2, key := f.relpath, sha := f.sha256 } : CatalogEntry))) ck
      = [] := by
  simp only [keys_of_kind]
  rw [List.filterMap_eq_nil_iff]
  intro e he
  rcases List.mem_map.mp he with ⟨f, _, rfl⟩
  simp [hne]

theorem sorted_relpaths (l : List SourceIndexFile) :
    ((sorted_by_relpath l).map (fun f => f.relpath)).Sorted (· ≤ ·) :=
  List.Pairwise.map (fun f : SourceIndexFile => f.relpath)
    (fun _ _ h => h) (List.sorted_insertionSort file_le l)

theorem perm_relpaths (l : List SourceIndexFile) :
    ((sorted_by_relpath l).map (fun f => f.relpath)).Perm (l.map (fun f => f.relpath)) :=
  (List.perm_insertionSort file_le l).map _

theorem copy_files_of_mem (files : List SourceIndexFile) (ks : List String)
    (h : "copybook" ∈ ks) :
    copy_files files ks = files.filter (fun f => f.kind == "copybook") := by
  apply List.filter_congr
  intro f _
  rw [decide_eq_true h, Bool.and_true]

theorem prog_files_of_mem (files : List SourceIndexFile) (ks : List String)
    (h : "program" ∈ ks) :
    prog_files files ks = files.filter (fun f => f.kind == "cobol") := by
  apply List.filter_congr
  intro f _
  rw [decide_eq_true h, Bool.and_true]

/-- C3: the built catalog has the synthetic whole-index entry first — exactly
one such entry regardless of file count, and only when the `source_index`
kind is requested — followed by the per-file entries grouped by artifact kind
in the fixed priority order (copybooks before programs; ranks never decrease
along the catalog), where within each kind the keys are the relpaths of the
eligible files, each exactly once, sorted ascending (byte-wise). -/
theorem build_catalog_order (files : List SourceIndexFile) (ks : List String) :
    ((build_catalog files ks).countP (fun e => e.kind == "cam.asset.source_index")
        = if "source_index" ∈ ks then 1 else 0) ∧
    ("source_index" ∈ ks →
      (build_catalog files ks).head?
        = some { kind := "cam.asset.source_index", key := "source-index" }) ∧
    (build_catalog files ks).Pairwise (fun a b => kind_rank a.kind ≤ kind_rank b.kind) ∧
    (keys_of_kind (build_catalog files ks) "cam.cobol.copybook").Sorted (· ≤ ·) ∧
    (keys_of_kind (build_catalog files ks) "cam.cobol.copybook").Perm
      (if "copybook" ∈ ks then
        (files.filter (fun f => f.kind == "copybook")).map (fun f => f.relpath) else []) ∧
    (keys_of_kind (build_catalog files ks) "cam.cobol.program").Sorted (· ≤ ·) ∧
    (keys_of_kind (build_catalog files ks) "cam.cobol.program").Perm
      (if "program" ∈ ks then
        (files.filter (fun f => f.kind == "cobol")).map (fun f => f.relpath) else []) := by
  refine ⟨?_, ?_, ?_, ?_, ?_, ?_, ?_⟩
  · unfold build_catalog
    rw [List.countP_append, List.countP_append]
    have hB : List.countP (fun e => e.kind == "cam.asset.source_index")
        (if "copybook" ∈ ks then
          (sorted_by_relpath (copy_files files ks)).map
            (fun f => ({ kind := "cam.cobol.copybook", key := f.relpath, sha := f.sha256 } : CatalogEntry))
          else []) = 0 := by
      rw [List.countP_eq_zero]
      intro e he
      rw [kind_of_mem_if_entry_map _ _ _ e he]
      decide
    have hC : List.countP (fun e => e.kind == "cam.asset.source_index")
        (if "program" ∈ ks then
          (sorted_by_relpath (prog_files files ks)).map
            (fun f => ({ kind := "cam.cobol.program", key := f.relpath, sha := f.sha256 } : CatalogEntry))
          else []) = 0 := by
      rw [List.countP_eq_zero]
      intro e he
      rw [kind_of_mem_if_entry_map _ _ _ e he]
      decide
    rw [hB, hC]
    split
    · decide
    · decide
  · intro h
    unfold build_catalog
    rw [if_pos h]
    rfl
  · unfold build_catalog
    rw [List.pairwise_append]
    refine ⟨?_, ?_, ?_⟩
    · apply List.pairwise_of_forall_mem_list
      intro a ha b hb
      rw [kind_of_mem_si_segment _ a ha, kind_of_mem_si_segment _ b hb]
    · rw [List.pairwise_append]
      refine ⟨?_, ?_, ?_⟩
      · apply List.pairwise_of_forall_mem_list
        intro a ha b hb
        rw [kind_of_mem_if_entry_map _ _ _ a ha, kind_of_mem_if_entry_map _ _ _ b hb]
      · apply List.pairwise_of_forall_mem_list
        intro a ha b hb
        rw [kind_of_mem_if_entry_map _ _ _ a ha, kind_of_mem_if_entry_map _ _ _ b hb]
      · intro a ha b hb
        rw [kind_of_mem_if_entry_map _ _ _ a ha, kind_of_mem_if_entry_map _ _ _ b hb]
        decide
    · intro a ha b hb
      rw [kind_of_mem_si_segment _ a ha]
      simp [kind_rank]
  · unfold build_catalog
    rw [keys_of_kind_append, keys_of_kind_append,
      keys_of_kind_si_segment _ _ (by decide)]
    have hC0 : keys_of_kind
        (if "program" ∈ ks then
          (sorted_by_relpath (prog_files files ks)).map
            (fun f => ({ kind := "cam.cobol.program", key := f.relpath, sha := f.sha256 } : CatalogEntry))
          else []) "cam.cobol.copybook" = [] := by
      split
      · exact keys_of_kind_entry_map_other _ _ (by decide) _
      · rfl
    rw [hC0, List.append_nil, List.nil_append]
    split
    · rw [keys_of_kind_entry_map_same]
      exact sorted_relpaths _
    · exact List.sorted_nil
  · unfold build_catalog
    rw [keys_of_kind_append, keys_of_kind_append,
      keys_of_kind_si_segment _ _ (by decide)]
    have hC0 : keys_of_kind
        (if "program" ∈ ks then
          (sorted_by_relpath (prog_files files ks)).map
            (fun f => ({ kind := "cam.cobol.program", key := f.relpath, sha := f.sha256 } : CatalogEntry))
          else []) "cam.cobol.copybook" = [] := by
      split
      · exact keys_of_kind_entry_map_other _ _ (by decide) _
      · rfl
    rw [hC0, List.append_nil, List.nil_append]
    by_cases h : "copybook" ∈ ks
    · rw [if_pos h, if_pos h, keys_of_kind_entry_map_same, ← copy_files_of_mem files ks h]
      exact perm_relpaths _
    · rw [if_neg h, if_neg h]
      exact List.Perm.refl _
  · unfold build_catalog
    rw [keys_of_kind_append, keys_of_kind_append,
      keys_of_kind_si_segment _ _ (by decide)]
    have hB0 : keys_of_kind
        (if "copybook" ∈ ks then
          (sorted_by_relpath (copy_files files ks)).map
            (fun f => ({ kind := "cam.cobol.copybook", key := f.relpath, sha := f.sha256 } : CatalogEntry))
          else []) "cam.cobol.program" = [] := by
      split
      · exact keys_of_kind_entry_map_other _ _ (by decide) _
      · rfl
    rw [hB0, List.nil_append, List.nil_append]
    split
    · rw [keys_of_kind_entry_map_same]
      exact sorted_relpaths _
    · exact List.sorted_nil
  · unfold build_catalog
    rw [keys_of_kind_append, keys_of_kind_append,
      keys_of_kind_si_segment _ _ (by decide)]
    have hB0 : keys_of_kind
        (if "copybook" ∈ ks then
          (sorted_by_relpath (copy_files files ks)).map
            (fun f => ({ kind := "cam.cobol.copybook", key := f.relpath, sha := f.sha256 } : CatalogEntry))
          else []) "cam.cobol.program" = [] := by
      split
      · exact keys_of_kind_entry_map_other _ _ (by decide) _
      · rfl
    rw [hB0, List.nil_append, List.nil_append]
    by_cases h : "program" ∈ ks
    · rw [if_pos h, if_pos h, keys_of_kind_entry_map_same, ← prog_files_of_mem files ks h]
      exact perm_relpaths _
    · rw [if_neg h, if_neg h]
      exact List.Perm.refl _

/-- Witness for `build_catalog_order` on a concrete index with all three
kinds requested: the whole-index entry is the head of the catalog. -/
theorem build_catalog_order_witness :
    (build_catalog
        [{ relpath := "b.cbl", size_bytes := 10, sha256 := "s1", kind := "cobol" },
         { relpath := "c.cpy", size_bytes := 5, sha256 := "s3", kind := "copybook" },
         { relpath := "a.cbl", size_bytes := 7, sha256 := "s2", kind := "cobol" }]
        ["source_index", "copybook", "program"]).head?
      = some { kind := "cam.asset.source_index", key := "source-index" } :=
  (build_catalog_order
    [{ relpath := "b.cbl", size_bytes := 10, sha256 := "s1", kind := "cobol" },
     { relpath := "c.cpy", size_bytes := 5, sha256 := "s3", kind := "copybook" },
     { relpath := "a.cbl", size_bytes := 7, sha256 := "s2", kind := "cobol" }]
    ["source_index", "copybook", "program"]).2.1 (by decide)

/-! ## cache.py and the per-page fill step (parse_repo.py lines 131-241)

`artifact_path(cfg, run_id, sha, kind)` derives the cache slot
deterministically from `(sha, kind)` within one run, so the run-scoped cache
is modelled as an association list keyed by `(sha, kind)`; `write_json`
overwrites the slot (the newest write is found first). -/

/-- A cached artifact: either a normalized parse result
(`normalize_cb2xml_tree` / `normalize_program_obj` keep the file's relpath and
sha256 alongside the parser output), or an `ErrorArtifact`
`{key, data: {phase, error}}`. -/
inductive ArtifactVal where
  | success (relpath sha tree : String)
  | errorArt (key phase msg : String)
deriving DecidableEq, Repr

/-- A cache key: `(fingerprint, artifact kind)` as used by `artifact_path`. -/
abbrev CacheKey := String × String

/-- The run-scoped content cache. -/
abbrev Cache := List (CacheKey × ArtifactVal)

/-- `exists(artifact_path(...))` / `read_json(artifact_path(...))`: the newest
write for a key wins. -/
def cache_lookup : Cache → CacheKey → Option ArtifactVal
  | [], _ => none
  | (k1, v) :: rest, k => if k1 = k then some v else cache_lookup rest k

/-- `write_json(artifact_path(...), ...)`: overwrite the slot. -/
def cache_write (c : Cache) (k : CacheKey) (v : ArtifactVal) : Cache :=
  (k, v) :: c

/-- The external analyzer (the cb2xml/ProLeap subprocess behind
`parse_copybook_with_cb2xml` / `parse_program_with_proleap`): a deterministic
function of the artifact kind and of the file's content — represented by its
fingerprint, since the fingerprint is a pure function of the file bytes.
`Except.error` covers parser failures, timeouts and invalid output alike. -/
abbrev Analyzer := String → String → Except String String

/-- The common body of `work_copy` (lines 131-150) and `work_prog` (lines
152-185), parametrised by the artifact kind: skip when a success artifact for
`(sha, akind)` exists and `force_reparse` is false; otherwise invoke the
analyzer, writing a normalized success artifact on success and an
`ErrorArtifact` under `(sha, "error")` on failure.  The second component
counts analyzer invocations (0 or 1). -/
def work_item (akind : String) (A : Analyzer) (force_reparse : Bool)
    (c : Cache) (it : CatalogEntry) : Cache × Nat :=
  if (cache_lookup c (it.sha, akind)).isSome ∧ force_reparse = false then (c, 0)
  else
    match A akind it.sha with
    | Except.ok tree => (cache_write c (it.sha, akind) (ArtifactVal.success it.key it.sha tree), 1)
    | Except.error e => (cache_write c (it.sha, "error") (ArtifactVal.errorArt it.key akind e), 1)

/-- `work_copy` (lines 131-150). -/
def work_copy (A : Analyzer) (force_reparse : Bool) (c : Cache) (it : CatalogEntry) :
    Cache × Nat :=
  work_item "copybook" A force_reparse c it

/-- `work_prog` (lines 152-185). -/
def work_prog (A : Analyzer) (force_reparse : Bool) (c : Cache) (it : CatalogEntry) :
    Cache × Nat :=
  work_item "program" A force_reparse c it

/-- Lines 189-204: the page fill step.  The thread pool drains every submitted
task before the page is assembled; tasks are modelled as executed in
submission order (the per-item conclusions proved below hold for any order:
success slots are keyed by `(sha, kind)` and only ever receive
analyzer-determined content).  Synthetic `source_index` entries are skipped;
unknown kinds are not submitted. -/
def fill_page (A : Analyzer) (force_reparse : Bool) : Cache → List CatalogEntry → Cache
  | c, [] => c
  | c, it :: rest =>
    if it.kind = "cam.asset.source_index" then fill_page A force_reparse c rest
    else if it.kind = "cam.cobol.copybook" then
      fill_page A force_reparse (work_copy A force_reparse c it).1 rest
    else if it.kind = "cam.cobol.program" then
      fill_page A force_reparse (work_prog A force_reparse c it).1 rest
    else fill_page A force_reparse c rest

/-- One payload of the response's `artifacts` list (lines 217-241). -/
inductive PageItem where
  | sourceIndexItem
  | dataItem (kind key : String) (art : ArtifactVal)
  | errorItem (key : String) (art : ArtifactVal)
deriving DecidableEq, Repr

/-- Lines 223-241 for one non-synthetic entry: prefer the success artifact at
`(sha, akind)`, fall back to the error artifact at `(sha, "error")`, append
nothing when neither exists. -/
def assemble_artifact (c : Cache) (it : CatalogEntry) (akind : String) : List PageItem :=
  match cache_lookup c (it.sha, akind) with
  | some a => [PageItem.dataItem it.kind it.key a]
  | none =>
    match cache_lookup c (it.sha, "error") with
    | some a => [PageItem.errorItem it.key a]
    | none => []

/-- Lines 217-241: the page payload, assembled by re-reading the cache in
catalog order after the fill step. -/
def assemble_page (c : Cache) : List CatalogEntry → List PageItem
  | [] => []
  | it :: rest =>
    (if it.kind = "cam.asset.source_index" then [PageItem.sourceIndexItem]
     else if it.kind = "cam.cobol.copybook" then assemble_artifact c it "copybook"
     else if it.kind = "cam.cobol.program" then assemble_artifact c it "program"
     else []) ++ assemble_page c rest

/-- The payload family of a page item: the whole-index dump, a `data` payload,
or an `error` payload. -/
def page_item_shape : PageItem → String
  | PageItem.sourceIndexItem => "source_index"
  | PageItem.dataItem _ _ _ => "data"
  | PageItem.errorItem _ _ => "error"

/-- The `key` field of a page item. -/
def page_item_key : PageItem → String
  | PageItem.sourceIndexItem => "source-index"
  | PageItem.dataItem _ k _ => k
  | PageItem.errorItem k _ => k

/-- The analyzer artifact kind dispatched for a catalog kind. -/
def artifact_kind_of (ck : String) : String :=
  if ck = "cam.cobol.copybook" then "copybook" else "program"

/-- The payload family an entry should produce given the analyzer's behaviour
on its content. -/
def expected_shape (A : Analyzer) (it : CatalogEntry) : String :=
  if it.kind = "cam.asset.source_index" then "source_index"
  else
    match A (artifact_kind_of it.kind) it.sha with
    | Except.ok _ => "data"
    | Except.error _ => "error"

/-- The `key` an entry's payload should carry. -/
def entry_key (it : CatalogEntry) : String :=
  if it.kind = "cam.asset.source_index" then "source-index" else it.key

theorem work_item_lookup_mono (akind : String) (A : Analyzer) (force : Bool)
    (c : Cache) (it : CatalogEntry) (k : CacheKey)
    (h : (cache_lookup c k).isSome) :
    (cache_lookup (work_item akind A force c it).1 k).isSome := by
  unfold work_item
  split
  · exact h
  · cases hA : A akind it.sha with
    | ok tree =>
      simp only [hA, cache_write, cache_lookup]
      split
      · rfl
      · exact h
    | error e =>
      simp only [hA, cache_write, cache_lookup]
      split
      · rfl
      · exact h

theorem fill_page_lookup_mono (A : Analyzer) (force : Bool) (k : CacheKey) :
    ∀ (items : List CatalogEntry) (c : Cache), (cache_lookup c k).isSome →
      (cache_lookup (fill_page A force c items) k).isSome := by
  intro items
  induction items with
  | nil => intro c h; exact h
  | cons hd rest ih =>
    intro c h
    unfold fill_page
    split
    · exact ih c h
    · split
      · exact ih _ (work_item_lookup_mono "copybook" A force c hd k h)
      · split
        · exact ih _ (work_item_lookup_mono "program" A force c hd k h)
        · exact ih c h

theorem work_item_success_present (akind : String) (A : Analyzer) (force : Bool)
    (c : Cache) (it : CatalogEntry)
    (hok : ∃ tree, A akind it.sha = Except.ok tree) :
    (cache_lookup (work_item akind A force c it).1 (it.sha, akind)).isSome := by
  unfold work_item
  split
  · next hcond => exact hcond.1
  · rcases hok with ⟨tree, htree⟩
    simp [htree, cache_write, cache_lookup]

theorem work_item_error_present (akind : String) (A : Analyzer) (force : Bool)
    (c : Cache) (it : CatalogEntry)
    (herr : ∃ e, A akind it.sha = Except.error e)
    (hnone : cache_lookup c (it.sha, akind) = none) :
    (cache_lookup (work_item akind A force c it).1 (it.sha, "error")).isSome := by
  unfold work_item
  split
  · next hcond =>
    rw [hnone] at hcond
    exact absurd hcond.1 (by simp)
  · rcases herr with ⟨e, he⟩
    simp [he, cache_write, cache_lookup]

theorem work_item_preserves_none (akind : String) (A : Analyzer) (force : Bool)
    (c : Cache) (it : CatalogEntry) (s ak : String) (hak : ak ≠ "error")
    (hA : ∀ tree, ¬ A ak s = Except.ok tree)
    (h : cache_lookup c (s, ak) = none) :
    cache_lookup (work_item akind A force c it).1 (s, ak) = none := by
  unfold work_item
  split
  · exact h
  · cases hAk : A akind it.sha with
    | ok tree =>
      simp only [hAk, cache_write, cache_lookup]
      split
      · next heq =>
        exfalso
        have h1 : it.sha = s := congrArg Prod.fst heq
        have h2 : akind = ak := congrArg Prod.snd heq
        exact hA tree (by rw [← h1, ← h2]; exact hAk)
      · exact h
    | error e =>
      simp only [hAk, cache_write, cache_lookup]
      split
      · next heq =>
        exfalso
        exact hak (congrArg Prod.snd heq).symm
      · exact h

theorem fill_page_no_success (A : Analyzer) (force : Bool) (s ak : String)
    (hak : ak ≠ "error") (hA : ∀ tree, ¬ A ak s = Except.ok tree) :
    ∀ (items : List CatalogEntry) (c : Cache),
      cache_lookup c (s, ak) = none →
      cache_lookup (fill_page A force c items) (s, ak) = none := by
  intro items
  induction items with
  | nil => intro c h; exact h
  | cons hd rest ih =>
    intro c h
    unfold fill_page
    split
    · exact ih c h
    · split
      · exact ih _ (work_item_preserves_none "copybook" A force c hd s ak hak hA h)
      · split
        · exact ih _ (work_item_preserves_none "program" A force c hd s ak hak hA h)
        · exact ih c h

theorem fill_page_success_present (A : Analyzer) (force : Bool) :
    ∀ (items : List CatalogEntry) (c : Cache) (it : CatalogEntry),
      it ∈ items →
      (it.kind = "cam.cobol.copybook" ∨ it.kind = "cam.cobol.program") →
      (∃ tree, A (artifact_kind_of it.kind) it.sha = Except.ok tree) →
      (cache_lookup (fill_page A force c items) (it.sha, artifact_kind_of it.kind)).isSome := by
  intro items
  induction items with
  | nil => intro c it h; cases h
  | cons hd rest ih =>
    intro c it hmem hkind hok
    rcases List.mem_cons.mp hmem with heq | hmem2
    · subst heq
      rcases hkind with hk | hk
      · have hak : artifact_kind_of it.kind = "copybook" := by rw [hk]; decide
        rw [hak] at hok ⊢
        unfold fill_page
        rw [if_neg (by rw [hk]; decide), if_pos hk]
        exact fill_page_lookup_mono A force (it.sha, "copybook") rest _
          (work_item_success_present "copybook" A force c it hok)
      · have hak : artifact_kind_of it.kind = "program" := by rw [hk]; decide
        rw [hak] at hok ⊢
        unfold fill_page
        rw [if_neg (by rw [hk]; decide), if_neg (by rw [hk]; decide), if_pos hk]
        exact fill_page_lookup_mono A force (it.sha, "program") rest _
          (work_item_success_present "program" A force c it hok)
    · unfold fill_page
      split
      · exact ih c it hmem2 hkind hok
      · split
        · exact ih _ it hmem2 hkind hok
        · split
          · exact ih _ it hmem2 hkind hok
          · exact ih c it hmem2 hkind hok

theorem fill_page_error_present (A : Analyzer) (force : Bool) :
    ∀ (items : List CatalogEntry) (c : Cache) (it : CatalogEntry),
      it ∈ items →
      (it.kind = "cam.cobol.copybook" ∨ it.kind = "cam.cobol.program") →
      (∃ e, A (artifact_kind_of it.kind) it.sha = Except.error e) →
      cache_lookup c (it.sha, artifact_kind_of it.kind) = none →
      (cache_lookup (fill_page A force c items) (it.sha, "error")).isSome := by
  intro items
  induction items with
  | nil => intro c it h; cases h
  | cons hd rest ih =>
    intro c it hmem hkind herr hnone
    have hA : ∀ tree, ¬ A (artifact_kind_of it.kind) it.sha = Except.ok tree := by
      rcases herr with ⟨e, he⟩
      intro tree h
      rw [he] at h
      cases h
    have hak : artifact_kind_of it.kind ≠ "error" := by
      rcases hkind with hk | hk <;> rw [hk] <;> decide
    rcases List.mem_cons.mp hmem with heq | hmem2
    · subst heq
      rcases hkind with hk | hk
      · have hak2 : artifact_kind_of it.kind = "copybook" := by rw [hk]; decide
        rw [hak2] at herr hnone
        unfold fill_page
        rw [if_neg (by rw [hk]; decide), if_pos hk]
        exact fill_page_lookup_mono A force (it.sha, "error") rest _
          (work_item_error_present "copybook" A force c it herr hnone)
      · have hak2 : artifact_kind_of it.kind = "program" := by rw [hk]; decide
        rw [hak2] at herr hnone
        unfold fill_page
        rw [if_neg (by rw [hk]; decide), if_neg (by rw [hk]; decide), if_pos hk]
        exact fill_page_lookup_mono A force (it.sha, "error") rest _
          (work_item_error_present "program" A force c it herr hnone)
    · unfold fill_page
      split
      · exact ih c it hmem2 hkind herr hnone
      · split
        · exact ih _ it hmem2 hkind herr
            (work_item_preserves_none "copybook" A force c hd it.sha
              (artifact_kind_of it.kind) hak hA hnone)
        · split
          · exact ih _ it hmem2 hkind herr
              (work_item_preserves_none "program" A force c hd it.sha
                (artifact_kind_of it.kind) hak hA hnone)
          · exact ih c it hmem2 hkind herr hnone

/-- C4 amended: (i) whenever a success artifact for `(fingerprint, artifact
kind)` exists in the cache and `force_reparse` is false, the worker returns
without invoking the analyzer or touching the cache; (ii) for a file whose
analysis SUCCEEDS, running the worker twice without `force_reparse` invokes
the analyzer at most once in total, and assembling the entry's payload after
the second run reads back exactly the same cached artifact as after the first
(a `data` payload).  (As stated — for every file, at most one invocation — the
claim is false: a FAILED analysis caches only an `(fingerprint, "error")`
artifact, the `(fingerprint, kind)` skip check misses it, and the analyzer is
re-invoked; see `failed_parse_reinvoked_cex`.) -/
theorem cache_idempotent_on_success (A : Analyzer) (c0 : Cache) (it : CatalogEntry) :
    (∀ a, cache_lookup c0 (it.sha, "copybook") = some a →
      work_copy A false c0 it = (c0, 0)) ∧
    (∀ tree, A "copybook" it.sha = Except.ok tree →
      (work_copy A false c0 it).2
          + (work_copy A false (work_copy A false c0 it).1 it).2 ≤ 1 ∧
      assemble_artifact (work_copy A false (work_copy A false c0 it).1 it).1 it "copybook"
          = assemble_artifact (work_copy A false c0 it).1 it "copybook" ∧
      (assemble_artifact (work_copy A false c0 it).1 it "copybook").map page_item_shape
          = ["data"]) := by
  constructor
  · intro a ha
    simp [work_copy, work_item, ha]
  · intro tree htree
    cases hl : cache_lookup c0 (it.sha, "copybook") with
    | some a =>
      have h1 : work_copy A false c0 it = (c0, 0) := by
        simp [work_copy, work_item, hl]
      refine ⟨by simp [h1], by simp [h1], ?_⟩
      rw [h1]
      simp [assemble_artifact, hl, page_item_shape]
    | none =>
      have h1 : work_copy A false c0 it
          = (cache_write c0 (it.sha, "copybook") (ArtifactVal.success it.key it.sha tree), 1) := by
        simp [work_copy, work_item, hl, htree]
      have h2 : cache_lookup
          (cache_write c0 (it.sha, "copybook") (ArtifactVal.success it.key it.sha tree))
          (it.sha, "copybook") = some (ArtifactVal.success it.key it.sha tree) := by
        simp [cache_write, cache_lookup]
      have h3 : work_copy A false
          (cache_write c0 (it.sha, "copybook") (ArtifactVal.success it.key it.sha tree)) it
          = (cache_write c0 (it.sha, "copybook") (ArtifactVal.success it.key it.sha tree), 0) := by
        simp [work_copy, work_item, h2]
      refine ⟨by simp [h1, h3], by simp [h1, h3], ?_⟩
      rw [h1]
      simp [assemble_artifact, h2, page_item_shape]

/-- Witness for `cache_idempotent_on_success`: a concrete succeeding analyzer
run twice from an empty cache, invoked exactly once in total with identical
payloads both times. -/
theorem cache_idempotent_on_success_witness :
    (work_copy (fun _ _ => Except.ok "tree") false []
        { kind := "cam.cobol.copybook", key := "a.cpy", sha := "s1" }).2
      + (work_copy (fun _ _ => Except.ok "tree") false
          (work_copy (fun _ _ => Except.ok "tree") false []
            { kind := "cam.cobol.copybook", key := "a.cpy", sha := "s1" }).1
          { kind := "cam.cobol.copybook", key := "a.cpy", sha := "s1" }).2 ≤ 1 :=
  ((cache_idempotent_on_success (fun _ _ => Except.ok "tree") []
    { kind := "cam.cobol.copybook", key := "a.cpy", sha := "s1" }).2 "tree" rfl).1

/-- C4 counterexample: with an analyzer that fails on a file (and an empty
run cache), processing the same catalog entry twice without `force_reparse`
invokes the analyzer TWICE — the first failure cached only an error artifact
under `(fingerprint, "error")`, which the `(fingerprint, "copybook")`
existence check does not see, refuting "invokes the external analyzer at most
once". -/
theorem failed_parse_reinvoked_cex :
    ¬ ((work_copy (fun _ _ => Except.error "cb2xml failed") false []
          { kind := "cam.cobol.copybook", key := "a.cpy", sha := "s1" }).2
        + (work_copy (fun _ _ => Except.error "cb2xml failed") false
            (work_copy (fun _ _ => Except.error "cb2xml failed") false []
              { kind := "cam.cobol.copybook", key := "a.cpy", sha := "s1" }).1
            { kind := "cam.cobol.copybook", key := "a.cpy", sha := "s1" }).2 ≤ 1) := by
  decide

theorem assemble_entry_of_fill (A : Analyzer) (force : Bool)
    (items : List CatalogEntry) (it : CatalogEntry) (hmem : it ∈ items)
    (hkind : it.kind = "cam.cobol.copybook" ∨ it.kind = "cam.cobol.program") :
    ∃ pi : PageItem,
      assemble_artifact (fill_page A force [] items) it (artifact_kind_of it.kind) = [pi] ∧
      page_item_shape pi = expected_shape A it ∧
      page_item_key pi = it.key := by
  have hne : ¬ it.kind = "cam.asset.source_index" := by
    rcases hkind with h | h <;> rw [h] <;> decide
  cases hA : A (artifact_kind_of it.kind) it.sha with
  | ok tree =>
    have hs := fill_page_success_present A force items [] it hmem hkind ⟨tree, hA⟩
    rcases Option.isSome_iff_exists.mp hs with ⟨a, ha⟩
    refine ⟨PageItem.dataItem it.kind it.key a, ?_, ?_, rfl⟩
    · simp [assemble_artifact, ha]
    · simp [page_item_shape, expected_shape, hne, hA]
  | error e =>
    have hak : artifact_kind_of it.kind ≠ "error" := by
      rcases hkind with h | h <;> rw [h] <;> decide
    have hAno : ∀ tree, ¬ A (artifact_kind_of it.kind) it.sha = Except.ok tree := by
      intro tree h
      rw [hA] at h
      cases h
    have hnone := fill_page_no_success A force it.sha (artifact_kind_of it.kind)
      hak hAno items [] rfl
    have herr := fill_page_error_present A force items [] it hmem hkind ⟨e, hA⟩ rfl
    rcases Option.isSome_iff_exists.mp herr with ⟨a, ha⟩
    refine ⟨PageItem.errorItem it.key a, ?_, ?_, rfl⟩
    · simp [assemble_artifact, hnone, ha]
    · simp [page_item_shape, expected_shape, hne, hA]

/-- C5: processing a page from a fresh run cache, every item of the assembled
page payload matches its catalog entry in order: the synthetic entry yields
the whole-index payload, every entry whose analysis succeeds yields a `data`
payload under its own key, and every entry whose analysis fails (parser error
or timeout alike) yields an `error` payload under its own key, with the
failure also recorded as a cached error artifact — siblings are unaffected and
the fill and assembly steps are total functions (the request itself never
fails). -/
theorem page_failure_isolation (A : Analyzer) (force : Bool)
    (items : List CatalogEntry)
    (hk : ∀ it ∈ items,
      it.kind = "cam.asset.source_index" ∨ it.kind = "cam.cobol.copybook"
        ∨ it.kind = "cam.cobol.program") :
    ((assemble_page (fill_page A force [] items) items).map page_item_shape
        = items.map (expected_shape A)) ∧
    ((assemble_page (fill_page A force [] items) items).map page_item_key
        = items.map entry_key) ∧
    (∀ it ∈ items, (it.kind = "cam.cobol.copybook" ∨ it.kind = "cam.cobol.program") →
      ∀ e, A (artifact_kind_of it.kind) it.sha = Except.error e →
        (cache_lookup (fill_page A force [] items) (it.sha, "error")).isSome) := by
  have main : ∀ sub : List CatalogEntry, (∀ it ∈ sub, it ∈ items) →
      (∀ it ∈ sub,
        it.kind = "cam.asset.source_index" ∨ it.kind = "cam.cobol.copybook"
          ∨ it.kind = "cam.cobol.program") →
      ((assemble_page (fill_page A force [] items) sub).map page_item_shape
          = sub.map (expected_shape A)) ∧
      ((assemble_page (fill_page A force [] items) sub).map page_item_key
          = sub.map entry_key) := by
    intro sub
    induction sub with
    | nil => intro _ _; exact ⟨rfl, rfl⟩
    | cons hd rest ih =>
      intro hsub hkinds
      have hmem : hd ∈ items := hsub hd (List.mem_cons_self _ _)
      have hkd := hkinds hd (List.mem_cons_self _ _)
      have ihr := ih (fun x h => hsub x (List.mem_cons_of_mem _ h))
        (fun x h => hkinds x (List.mem_cons_of_mem _ h))
      rcases hkd with h0 | hcb | hpr
      · constructor
        · simp only [assemble_page, if_pos h0, List.singleton_append, List.map_cons]
          rw [ihr.1]
          simp [page_item_shape, expected_shape, h0]
        · simp only [assemble_page, if_pos h0, List.singleton_append, List.map_cons]
          rw [ihr.2]
          simp [page_item_key, entry_key, h0]
      · have hne : ¬ hd.kind = "cam.asset.source_index" := by rw [hcb]; decide
        have hak : artifact_kind_of hd.kind = "copybook" := by rw [hcb]; decide
        rcases assemble_entry_of_fill A force items hd hmem (Or.inl hcb)
          with ⟨pi, hseg, hshape, hkey⟩
        rw [hak] at hseg
        constructor
        · simp only [assemble_page, if_neg hne, if_pos hcb, hseg,
            List.singleton_append, List.map_cons]
          rw [hshape, ihr.1]
        · simp only [assemble_page, if_neg hne, if_pos hcb, hseg,
            List.singleton_append, List.map_cons]
          rw [hkey, ihr.2]
          simp only [entry_key]
          rw [if_neg hne]
      · have hne : ¬ hd.kind = "cam.asset.source_index" := by rw [hpr]; decide
        have hne2 : ¬ hd.kind = "cam.cobol.copybook" := by rw [hpr]; decide
        have hak : artifact_kind_of hd.kind = "program" := by rw [hpr]; decide
        rcases assemble_entry_of_fill A force items hd hmem (Or.inr hpr)
          with ⟨pi, hseg, hshape, hkey⟩
        rw [hak] at hseg
        constructor
        · simp only [assemble_page, if_neg hne, if_neg hne2, if_pos hpr, hseg,
            List.singleton_append, List.map_cons]
          rw [hshape, ihr.1]
        · simp only [assemble_page, if_neg hne, if_neg hne2, if_pos hpr, hseg,
            List.singleton_append, List.map_cons]
          rw [hkey, ihr.2]
          simp only [entry_key]
          rw [if_neg hne]
  refine ⟨(main items (fun _ h => h) hk).1, (main items (fun _ h => h) hk).2, ?_⟩
  intro it hm hk2 e he
  exact fill_page_error_present A force items [] it hm hk2 ⟨e, he⟩ rfl

/-- Witness for `page_failure_isolation`: a page with the synthetic entry, a
failing copybook, and a succeeding program — the failing item yields an
`error` payload, its siblings their `data`/whole-index payloads. -/
theorem page_failure_isolation_witness :
    (assemble_page
        (fill_page (fun ak s => if ak = "copybook" && s = "s3" then Except.error "boom"
            else Except.ok "tree") false []
          [{ kind := "cam.asset.source_index", key := "source-index" },
           { kind := "cam.cobol.copybook", key := "c.cpy", sha := "s3" },
           { kind := "cam.cobol.program", key := "a.cbl", sha := "s1" }])
        [{ kind := "cam.asset.source_index", key := "source-index" },
         { kind := "cam.cobol.copybook", key := "c.cpy", sha := "s3" },
         { kind := "cam.cobol.program", key := "a.cbl", sha := "s1" }]).map page_item_shape
      = ["source_index", "error", "data"] := by
  have h := (page_failure_isolation
    (fun ak s => if ak = "copybook" && s = "s3" then Except.error "boom"
      else Except.ok "tree") false
    [{ kind := "cam.asset.source_index", key := "source-index" },
     { kind := "cam.cobol.copybook", key := "c.cpy", sha := "s3" },
     { kind := "cam.cobol.program", key := "a.cbl", sha := "s1" }]
    (by intro it hit; fin_cases hit <;> simp)).1
  rw [h]
  decide

/-! ## utils/fs.py and hashing.py -/

/-- Index of the last occurrence of a character in a list. -/
def last_index_of : List Char → Char → Option Nat
  | [], _ => none
  | x :: rest, c =>
    match last_index_of rest c with
    | some i => some (i + 1)
    | none => if x = c then some 0 else none

/-- The extension component of `os.path.splitext` (CPython
`genericpath._splitext` with separator `/`): the suffix from the last dot of
the final path component, unless every character between the component start
and that dot is itself a dot (so a leading-dot name like `.bashrc` has no
extension). -/
def splitext_ext (p : String) : String :=
  let cs := p.data
  let compStart : Nat :=
    match last_index_of cs '/' with
    | none => 0
    | some si => si + 1
  match last_index_of cs '.' with
  | none => ""
  | some d =>
    if compStart ≤ d ∧ ((cs.drop compStart).take (d - compStart)).any (fun ch => ch != '.') then
      String.mk (cs.drop d)
    else ""

/-- `fs.KIND_MAP`. -/
def KIND_MAP : List (String × String) :=
  [(".cbl", "cobol"), (".cob", "cobol"), (".cpy", "copybook"), (".cpyb", "copybook"),
   (".jcl", "jcl"), (".bms", "bms"), (".ddl", "ddl")]

/-- `fs.detect_kind`: lower-case the relpath, take its extension, look it up
in `KIND_MAP`, default `"other"`. -/
def detect_kind (relpath : String) : String :=
  match (KIND_MAP.find? (fun pr => pr.1 == splitext_ext relpath.toLower)).map
      (fun pr => pr.2) with
  | some k => k
  | none => "other"

/-- The digest of `hashing.sha256_file`, modelled as an injective stand-in for
SHA-256 hex: the claims depend only on the digest being a pure, deterministic
function of the file bytes, never on its cryptographic structure. -/
def sha256_file (content : String) : String := content

/-- `rel.replace("\\", "/")` as applied by `walk_index`. -/
def replace_backslash (s : String) : String :=
  s.map (fun c => if c = '\x5c' then '/' else c)

/-- One file met during `os.walk`, with the instants the indexer touches it:
`present_at_stat` — does `os.stat` succeed (the file has not vanished yet);
`present_at_open` — does `sha256_file`'s `open` succeed. -/
structure FsFile where
  relpath : String
  size_bytes : Int
  content : String
  present_at_stat : Bool
  present_at_open : Bool
deriving DecidableEq, Repr

/-- The index entry `walk_index` appends for a file it can fully read. -/
def mk_index_entry (f : FsFile) : SourceIndexFile :=
  { relpath := replace_backslash f.relpath
  , size_bytes := f.size_bytes
  , sha256 := sha256_file f.content
  , kind := detect_kind f.relpath }

/-- `fs.walk_index`: only `os.stat` sits inside
`try: ... except FileNotFoundError: continue`; the subsequent
`sha256_file(ap)` opens the file OUTSIDE any handler, so a file that vanishes
between the stat and the open raises out of the whole walk. -/
def walk_index : List FsFile → Except String (List SourceIndexFile)
  | [] => Except.ok []
  | f :: rest =>
    if f.present_at_stat = false then walk_index rest
    else if f.present_at_open = false then Except.error "FileNotFoundError"
    else
      match walk_index rest with
      | Except.ok es => Except.ok (mk_index_entry f :: es)
      | Except.error e => Except.error e

/-- C9 amended: a file that is already gone when `os.stat` reaches it is
silently omitted and the remaining files are indexed normally — provided
every file that stats successfully is still there when it is opened for
hashing.  (As stated — a vanishing file NEVER fails the build — the claim is
false: only `os.stat` is inside the `try`; see
`vanish_between_stat_and_hash_cex`.) -/
theorem walk_index_skips_vanished (fs : List FsFile)
    (h : ∀ f ∈ fs, f.present_at_stat = true → f.present_at_open = true) :
    walk_index fs = Except.ok ((fs.filter (fun f => f.present_at_stat)).map mk_index_entry) := by
  induction fs with
  | nil => rfl
  | cons f rest ih =>
    have hrest := ih (fun x hx => h x (List.mem_cons_of_mem _ hx))
    unfold walk_index
    cases hstat : f.present_at_stat with
    | false =>
      rw [if_pos rfl, hrest]
      simp [List.filter, hstat]
    | true =>
      have hopen := h f (List.mem_cons_self _ _) hstat
      rw [if_neg (by simp [hstat]), if_neg (by simp [hopen]), hrest]
      simp [List.filter, hstat]

/-- Witness for `walk_index_skips_vanished`: one file vanished before its
stat, one healthy file — the vanished one is omitted, the other indexed. -/
theorem walk_index_skips_vanished_witness :
    walk_index
      [{ relpath := "gone.cbl", size_bytes := 3, content := "x",
         present_at_stat := false, present_at_open := false },
       { relpath := "a.cbl", size_bytes := 5, content := "abc",
         present_at_stat := true, present_at_open := true }]
      = Except.ok [mk_index_entry
          { relpath := "a.cbl", size_bytes := 5, content := "abc",
            present_at_stat := true, present_at_open := true }] := by
  have h := walk_index_skips_vanished
    [{ relpath := "gone.cbl", size_bytes := 3, content := "x",
       present_at_stat := false, present_at_open := false },
     { relpath := "a.cbl", size_bytes := 5, content := "abc",
       present_at_stat := true, present_at_open := true }]
    (by intro f hf; fin_cases hf <;> simp)
  rw [h]
  rfl

/-- C9 counterexample: a file that is still present at `os.stat` but vanishes
before `sha256_file` opens it raises `FileNotFoundError` out of the walk —
the whole index build fails, refuting "its disappearance never causes the
index build for the remaining files to fail". -/
theorem vanish_between_stat_and_hash_cex :
    walk_index
      [{ relpath := "a.cbl", size_bytes := 3, content := "xyz",
         present_at_stat := true, present_at_open := false },
       { relpath := "b.cbl", size_bytes := 5, content := "abc",
         present_at_stat := true, present_at_open := true }]
      = Except.error "FileNotFoundError" := rfl

end McpCobolParser
